import Mathlib

/-!
Verification of the Oracle-to-Elasticsearch migration engine.

This file gives a shallow embedding, in Lean 4, of the core of the
migration engine found in `src/services/advanced_migration_service.py`
and `src/services/advanced_mapping_service.py`, and proves (or refutes)
the frozen behavioural claims about it.

Modelling conventions:
* Python dicts become association lists `List (String × α)` with
  `dictLookup` (first match, like a dict with unique keys) and
  `dictInsert` (replace-in-place on an existing key, append otherwise —
  exactly the insertion-order semantics of CPython dict assignment).
* Python string methods (`upper`, `split`, `strip`, `replace`, `int(...)`)
  are re-implemented by structural recursion over `List Char` so that all
  definitions reduce inside the kernel; `String.splitOn`/`String.map`
  use well-founded recursion and would block `decide`/`rfl`.
* External collaborators (the Elasticsearch bulk helper, the filesystem)
  are passed in as explicit outcome parameters, turning stateful code into
  state passing.
* Machine numbers become `Int`/`Nat`/`ℚ`; Python float division in the
  validator is modelled with exact rationals.
-/

/-- Left-fold lookup in an association list: the Lean rendering of a Python
dict access `d[k]` / `d.get(k)` (CPython dicts have unique keys, so first
match is the match). -/
def dictLookup {α : Type} (d : List (String × α)) (k : String) : Option α :=
  match d with
  | [] => none
  | p :: rest => if p.1 = k then some p.2 else dictLookup rest k

/-- Assignment `d[k] = v` on a Python dict: if the key is present the value
is replaced in place (insertion order kept), otherwise the pair is appended. -/
def dictInsert {α : Type} (d : List (String × α)) (k : String) (v : α) :
    List (String × α) :=
  if d.any (fun p => p.1 = k) then
    d.map (fun p => if p.1 = k then (k, v) else p)
  else
    d ++ [(k, v)]

/-- Key set of an association list. -/
def dictKeys {α : Type} (d : List (String × α)) : List String :=
  d.map Prod.fst

/-- Character-level `str.upper()` (ASCII, which is all the source ever feeds it). -/
def upperChars (l : List Char) : List Char :=
  l.map Char.toUpper

/-- Character-level `str.split(sep)` for a one-character separator, by
structural recursion (always returns a non-empty list, like Python's split). -/
def splitOnChar (c : Char) : List Char → List (List Char)
  | [] => [[]]
  | x :: xs =>
    match splitOnChar c xs with
    | [] => [[]]
    | h :: t => if x = c then [] :: h :: t else (x :: h) :: t

/-- Character-level `str.strip()` (whitespace only, as `int(...)` tolerates). -/
def trimChars (l : List Char) : List Char :=
  ((l.dropWhile Char.isWhitespace).reverse.dropWhile Char.isWhitespace).reverse

/-- Character-level single-character `str.replace(old, new)`. -/
def replaceChar (old new : Char) (l : List Char) : List Char :=
  l.map (fun c => if c = old then new else c)

/-- Digit run to a number: `some` iff the run is non-empty and all digits. -/
def digitsToNat (ds : List Char) : Option Nat :=
  match ds with
  | [] => none
  | _ =>
    if ds.all Char.isDigit then
      some (ds.foldl (fun a c => a * 10 + (c.toNat - '0'.toNat)) 0)
    else none

/-- Python `int(s)` on the strings reachable in this code base: surrounding
whitespace is stripped, an optional sign is accepted, then a non-empty digit
run; anything else raises `ValueError`, modelled as `none`.  (Python also
accepts `_` digit separators; none of the claims exercise that corner.) -/
def pyInt? (l : List Char) : Option Int :=
  match trimChars l with
  | '-' :: rest => (digitsToNat rest).map (fun n => -(n : Int))
  | '+' :: rest => (digitsToNat rest).map (fun n => (n : Int))
  | rest => (digitsToNat rest).map (fun n => (n : Int))

/-! ## Mapping model (`src/services/advanced_mapping_service.py`) -/

/-- Enum `MappingType`. -/
inductive MappingType where
  | direct
  | nested
  | parent_child
  | object
  | flattened
  deriving DecidableEq, Repr

/-- Enum `RelationshipType`. -/
inductive RelationshipType where
  | one_to_one
  | one_to_many
  | many_to_one
  | many_to_many
  deriving DecidableEq, Repr

/-- Dataclass `FieldMapping`.  The `transformation_rules` and
`validation_rules` payloads are opaque dict lists never read by
`generate_elasticsearch_mapping` and are omitted here. -/
structure FieldMapping where
  oracle_field : String
  es_field : String
  oracle_type : String
  es_type : String
  mapping_type : MappingType := MappingType.direct
  nested_path : Option String := none
  parent_field : Option String := none
  relationship_type : Option RelationshipType := none
  is_array : Bool := false
  deriving DecidableEq, Repr

/-- Dataclass `NestedMapping`. -/
structure NestedMapping where
  name : String
  path : String
  fields : List FieldMapping
  include_in_parent : Bool := false
  dynamic : Bool := true
  deriving DecidableEq, Repr

/-- Dataclass `ParentChildMapping`. -/
structure ParentChildMapping where
  parent_type : String
  child_type : String
  join_field : String
  parent_fields : List FieldMapping
  child_fields : List FieldMapping
  relationship_key : String
  deriving DecidableEq, Repr

/-- One property value in the generated Elasticsearch mapping.
`leaf` is a direct field declaration (`keywordSubfield` records whether the
`fields.keyword (ignore_above 256)` sub-field block was attached, which the
source does exactly for type `"text"`); `nestedObj` is a nested-object
declaration; `joinField` is a parent-child join declaration with its
`relations` dict. -/
inductive EsProperty where
  | leaf (type_ : String) (keywordSubfield : Bool)
  | nestedObj (dynamic : Bool) (include_in_parent : Bool)
      (properties : List (String × String))
  | joinField (relations : List (String × String))
  deriving DecidableEq, Repr

/-- Last dot segment of a field path: `es_field.split('.')[-1]`. -/
def lastSegment (s : String) : String :=
  String.mk ((splitOnChar '.' s.data).getLastD s.data)

/-- Python `AdvancedMappingService.generate_elasticsearch_mapping`, with the three
`self.*` mapping lists passed explicitly.  The method folds direct field
mappings, then nested mappings, then parent-child join fields into one
`properties` dict; every insertion is a plain dict assignment, so a repeated
target path silently overwrites the earlier entry — there is no conflict
check and no error path anywhere in the method. -/
def generate_elasticsearch_mapping (field_mappings : List FieldMapping)
    (nested_mappings : List NestedMapping)
    (parent_child_mappings : List ParentChildMapping) :
    List (String × EsProperty) :=
  let props := field_mappings.foldl
    (fun acc fm =>
      if fm.mapping_type = MappingType.direct then
        dictInsert acc fm.es_field (EsProperty.leaf fm.es_type (fm.es_type = "text"))
      else acc) []
  let props := nested_mappings.foldl
    (fun acc nm =>
      let nested_properties := nm.fields.foldl
        (fun a f => dictInsert a (lastSegment f.es_field) f.es_type) []
      dictInsert acc nm.path
        (EsProperty.nestedObj nm.dynamic nm.include_in_parent nested_properties))
    props
  parent_child_mappings.foldl
    (fun acc pc =>
      dictInsert acc pc.join_field
        (EsProperty.joinField [(pc.parent_type, pc.child_type)]))
    props

/-- The `type_mappings` dict of `_suggest_es_type`. -/
def type_mappings : List (String × String) :=
  [("VARCHAR2", "text"), ("VARCHAR", "text"), ("CHAR", "keyword"),
   ("NUMBER", "long"), ("INTEGER", "integer"), ("FLOAT", "float"),
   ("DATE", "date"), ("TIMESTAMP", "date"), ("CLOB", "text"),
   ("BLOB", "binary"), ("RAW", "binary")]

/-- Python `AdvancedMappingService._suggest_es_type`: upper-case the source type;
`NUMBER...` goes to `scaled_float` when a comma (declared scale) is present,
else `long`; `VARCHAR2/VARCHAR` with a parenthesised length goes to
`keyword` when `int(length) <= 256` and to `text` otherwise (a length that
`int()` rejects falls through the bare `except` to `text`); everything else
is looked up in `type_mappings` with default `text`. -/
def suggest_es_type (oracle_type : String) : String :=
  let t := upperChars oracle_type.data
  if List.isPrefixOf "NUMBER".data t then
    if t.contains ',' then "scaled_float" else "long"
  else if List.isPrefixOf "VARCHAR2".data t || List.isPrefixOf "VARCHAR".data t then
    if t.contains '(' then
      match pyInt? (((splitOnChar '(' t).getD 1 []
          |> splitOnChar ')').headD []) with
      | some len => if len ≤ 256 then "keyword" else "text"
      | none => "text"
    else "text"
  else (dictLookup type_mappings (String.mk t)).getD "text"

/-! ## Values and the transformer (`advanced_migration_service.py`) -/

/-- A Python value occurring in an Oracle row or an output document.
`datetime` is any object with an `isoformat` method (Oracle DATE/TIMESTAMP),
carrying the ISO string it formats to.  `lob` is any object with a `read`
method (CLOB/BLOB); `read()` may itself raise, which `_convert_data_type`
catches and turns into `None`, so the payload is `Option String` (the string
being the text, or the base64 rendering of binary content).  `obj` is any
other non-primitive object; `_convert_data_type` applies `str(...)` to it,
and an exotic `__str__` may raise — the one uncaught exception source in the
per-row transform — so its payload is `Option String` with `none` meaning
`str(value)` raises. -/
inductive OValue where
  | null
  | num (n : Int)
  | str (s : String)
  | bool (b : Bool)
  | datetime (iso : String)
  | lob (content : Option String)
  | obj (str_ : Option String)
  deriving DecidableEq, Repr

/-- A source row, as produced by `_stream_oracle_data`'s `dict(zip(...))`. -/
abbrev Row := List (String × OValue)

/-- An output Elasticsearch document. -/
abbrev EsDoc := List (String × OValue)

/-- The `condition` dict of a `conditional` transformation rule. -/
structure RuleCondition where
  operator : String
  value : OValue

/-- One transformation rule dict, keyed by its `type` field exactly as
`_apply_transformation` dispatches on it.  `date_format` carries the
composite `strptime(from_format)` / `strftime(to_format)` reformat step as
an abstract function (`none` = `strptime` raised `ValueError`);
`conditional` carries an optional condition dict (`condition.get(...)` on a
missing dict raises, which the method's blanket `except` swallows);
`unknown` stands for any unrecognized or missing `type`. -/
inductive TransformationRule where
  | date_format (reformat : String → Option String)
  | string_manipulation (operation : Option String)
  | numeric_scaling (scale_factor : Int)
  | conditional (condition : Option RuleCondition) (if_true if_false : OValue)
  | unknown

/-- Character-level ASCII `str.lower()`. -/
def lowerChars (l : List Char) : List Char :=
  l.map Char.toLower

/-- Python `AdvancedMigrationService._apply_transformation`.  Every branch is type
guarded (`isinstance`), values of other shapes pass through unchanged; the
whole body is wrapped in a blanket `except` that logs and returns the
original value, so this function never raises. -/
def apply_transformation (value : OValue) (rule : TransformationRule) : OValue :=
  match rule with
  | TransformationRule.date_format reformat =>
    match value with
    | OValue.str s =>
      match reformat s with
      | some s2 => OValue.str s2
      | none => value
    | _ => value
  | TransformationRule.string_manipulation operation =>
    match value with
    | OValue.str s =>
      if operation = some "uppercase" then OValue.str (String.mk (upperChars s.data))
      else if operation = some "lowercase" then OValue.str (String.mk (lowerChars s.data))
      else if operation = some "trim" then OValue.str (String.mk (trimChars s.data))
      else value
    | _ => value
  | TransformationRule.numeric_scaling scale_factor =>
    match value with
    | OValue.num n => OValue.num (n * scale_factor)
    | _ => value
  | TransformationRule.conditional condition if_true if_false =>
    match condition with
    | none => value
    | some c =>
      if c.operator = "equals" then
        if value = c.value then if_true else if_false
      else value
  | TransformationRule.unknown => value

/-- Python `AdvancedMigrationService._convert_data_type`: `None` stays `None`
(`some none` = returned `None` without raising); a `datetime` becomes its ISO
string; numbers pass through (`bool` is an `int` subclass in Python and also
passes through); a LOB is `read()` (`none` payload = the read raised, which
is caught and yields `None`); primitives pass through; any other object is
`str(...)`-converted, and that conversion raising is the `Except.error`
case, which propagates to the caller. -/
def convert_data_type (value : OValue) : Except Unit (Option OValue) :=
  match value with
  | OValue.null => Except.ok none
  | OValue.datetime iso => Except.ok (some (OValue.str iso))
  | OValue.num n => Except.ok (some (OValue.num n))
  | OValue.bool b => Except.ok (some (OValue.bool b))
  | OValue.lob content =>
    match content with
    | some s => Except.ok (some (OValue.str s))
    | none => Except.ok none
  | OValue.str s => Except.ok (some (OValue.str s))
  | OValue.obj s =>
    match s with
    | some t => Except.ok (some (OValue.str t))
    | none => Except.error ()

/-- The field-mapping loop inside `_transform_batch`'s per-record `try`:
for each `(oracle_field, es_field)` pair, a source field present in the row
is read, the per-target-field transformation rule (if any) is applied, the
value is type-coerced, and a non-`None` result is assigned into the
document; a coercion exception aborts the whole record. -/
def transformFields (transformation_rules : List (String × TransformationRule))
    (record : Row) : List (String × String) → EsDoc → Except Unit EsDoc
  | [], doc => Except.ok doc
  | (oracle_field, es_field) :: rest, doc =>
    match dictLookup record oracle_field with
    | none => transformFields transformation_rules record rest doc
    | some value =>
      let value :=
        match dictLookup transformation_rules es_field with
        | some rule => apply_transformation value rule
        | none => value
      match convert_data_type value with
      | Except.error e => Except.error e
      | Except.ok none => transformFields transformation_rules record rest doc
      | Except.ok (some v) =>
        transformFields transformation_rules record rest (dictInsert doc es_field v)

/-- The per-record body of `_transform_batch`: build the document from the
field mappings, then attach the two metadata fields
(`_migration_timestamp`, a `datetime.now().isoformat()` string passed in
here as `ts`, and `_migration_job_id`, the mapping-configuration id).
`Except.error` is the record landing in the `except` branch. -/
def transformRecord (field_mappings : List (String × String))
    (transformation_rules : List (String × TransformationRule))
    (record : Row) (ts : String) (config_id : Int) : Except Unit EsDoc :=
  match transformFields transformation_rules record field_mappings [] with
  | Except.error e => Except.error e
  | Except.ok doc =>
    Except.ok (dictInsert (dictInsert doc "_migration_timestamp" (OValue.str ts))
      "_migration_job_id" (OValue.num config_id))

/-- One dead-letter submission: the arguments of a
`dlq.add_failed_record(table, payload, error, job_id)` call. -/
structure DlqEntry where
  table_name : String
  payload : List (String × OValue)
  error_message : String
  job_id : Option Int
  deriving DecidableEq, Repr

/-- Python `AdvancedMigrationService._transform_batch`, with the DLQ side effect
made explicit: returns the successfully transformed documents (in order)
and the dead-letter submissions for the records whose transformation
raised.  A failed record is excluded from the returned document list and is
not otherwise counted. -/
def transform_batch (field_mappings : List (String × String))
    (transformation_rules : List (String × TransformationRule))
    (batch_data : List Row) (ts : String) (config_id : Int)
    (index_name : String) : List EsDoc × List DlqEntry :=
  batch_data.foldl
    (fun acc record =>
      match transformRecord field_mappings transformation_rules record ts config_id with
      | Except.ok doc => (acc.1 ++ [doc], acc.2)
      | Except.error _ =>
        (acc.1, acc.2 ++ [⟨index_name, record, "Transformation error", some config_id⟩]))
    ([], [])

/-! ## Bulk indexing (`_bulk_index_documents`) -/

/-- One entry of the `failed_items` list returned by the Elasticsearch
`bulk` helper (`raise_on_error=False`): the document body
(`item['index']['_source']`) and the error info. -/
structure FailedItem where
  source : EsDoc
  error : String
  deriving DecidableEq, Repr

/-- The outcome of the external `elasticsearch.helpers.bulk` call:
either a `(success_count, failed_items)` pair, or the call itself raising. -/
inductive BulkResponse where
  | result (success_count : Nat) (failed_items : List FailedItem)
  | exc

/-- The bulk helper's documented contract, assumed of the collaborator:
when the call returns, every submitted action is either counted in
`success_count` or enumerated in `failed_items`. -/
def bulkRespConsistent (actionCount : Nat) : BulkResponse → Prop
  | BulkResponse.result sc failed => sc + failed.length = actionCount
  | BulkResponse.exc => True

/-- Copy of `doc` with its `_id` key removed: the `del doc['_id']` mutation. -/
def stripId (doc : EsDoc) : EsDoc :=
  doc.filter (fun p => p.1 ≠ "_id")

/-- The action built for one document: explicit `_id` (when the document
carries one) and the body with `_id` deleted. -/
def buildAction (index_name : String) (doc : EsDoc) :
    String × Option OValue × EsDoc :=
  (index_name, dictLookup doc "_id", stripId doc)

/-- Python `AdvancedMigrationService._bulk_index_documents`, with the external bulk
call's outcome passed in.  An empty document list short-circuits to
`(0, 0)`.  Otherwise, on a normal return every failed item is counted and
dead-lettered; on an exception from the helper the whole batch is counted
failed and every (already `_id`-stripped) document is dead-lettered.
Returns `((success_count, failed_count), dead-letter submissions)`. -/
def bulk_index_documents (documents : List EsDoc) (index_name : String)
    (resp : BulkResponse) : (Nat × Nat) × List DlqEntry :=
  if documents.isEmpty then ((0, 0), [])
  else
    match resp with
    | BulkResponse.result success_count failed_items =>
      ((success_count, failed_items.length),
        failed_items.map (fun fi =>
          ⟨index_name, fi.source, "Indexing error: " ++ fi.error, none⟩))
    | BulkResponse.exc =>
      ((0, documents.length),
        (documents.map stripId).map (fun d =>
          ⟨index_name, d, "Bulk indexing exception", none⟩))

/-! ## The migration engine (`_execute_full_migration`,
`start_advanced_migration`) -/

/-- Loop state of the batch loop: metrics counters, number of batches
actually processed, and accumulated dead-letter submissions. -/
structure BatchAcc where
  processed : Nat
  failed : Nat
  started : Nat
  dlq : List DlqEntry

/-- The batch loop of `_execute_full_migration` (also the body shared by the
incremental strategy): at each batch boundary the cooperative stop flag is
polled (`stopAt i` is the value `self.stop_event.is_set()` returns at the
check preceding batch `i`; a `threading.Event` stays set once set) and the
loop breaks when it is set; otherwise the batch is transformed, bulk-loaded
(`resps i` being the external bulk outcome for batch `i`), and the counters
are updated (`processed += success_count`, `failed += failed_count`). -/
def runBatches (field_mappings : List (String × String))
    (transformation_rules : List (String × TransformationRule))
    (ts : String) (config_id : Int) (index_name : String)
    (stopAt : Nat → Bool) (resps : Nat → BulkResponse) :
    Nat → List (List Row) → BatchAcc → BatchAcc
  | _, [], acc => acc
  | i, batch :: rest, acc =>
    if stopAt i then acc
    else
      let tb := transform_batch field_mappings transformation_rules batch ts
        config_id index_name
      let bi := bulk_index_documents tb.1 index_name (resps i)
      runBatches field_mappings transformation_rules ts config_id index_name
        stopAt resps (i + 1) rest
        ⟨acc.processed + bi.1.1, acc.failed + bi.1.2, acc.started + 1,
          acc.dlq ++ tb.2 ++ bi.2⟩

/-- Python `AdvancedMigrationService._execute_full_migration`, batch-loop part:
streams the source batches, starting from batch index 0 with zeroed
counters.  (The upfront `COUNT(*)` and the index-preparation call only feed
`total_records` and the target store and do not affect the counters or the
status proved about here.) -/
def execute_full_migration (field_mappings : List (String × String))
    (transformation_rules : List (String × TransformationRule))
    (ts : String) (config_id : Int) (index_name : String)
    (batches : List (List Row)) (stopAt : Nat → Bool)
    (resps : Nat → BulkResponse) : BatchAcc :=
  runBatches field_mappings transformation_rules ts config_id index_name
    stopAt resps 0 batches ⟨0, 0, 0, []⟩

/-- The job record fields that `start_advanced_migration` writes at the end
of a run. -/
structure JobRecord where
  status : String
  processed_records : Nat
  failed_records : Nat
  error_message : Option String

/-- Python `AdvancedMigrationService.start_advanced_migration`, happy-path control
flow (the job exists and both connections open): dispatch on the strategy;
a run of `full` (or of `incremental`/`hybrid`, which share the same batch
loop) that returns — including one that broke out of the loop because the
stop flag was set — falls through to the final-status block, which
unconditionally sets `job.status = 'completed'` and copies the metrics
counters into the job; an unknown strategy raises `ValueError`, caught by
the `except` branch which sets `job.status = 'failed'` with the error
message.  No path in the service assigns the status `'stopped'`. -/
def start_advanced_migration (migration_strategy : String)
    (field_mappings : List (String × String))
    (transformation_rules : List (String × TransformationRule))
    (ts : String) (config_id : Int) (index_name : String)
    (batches : List (List Row)) (stopAt : Nat → Bool)
    (resps : Nat → BulkResponse) : JobRecord :=
  if migration_strategy = "full" ∨ migration_strategy = "incremental" ∨
      migration_strategy = "hybrid" then
    let r := execute_full_migration field_mappings transformation_rules ts
      config_id index_name batches stopAt resps
    ⟨"completed", r.processed, r.failed, none⟩
  else
    ⟨"failed", 0, 0,
      some ("Unknown migration strategy: " ++ migration_strategy)⟩

/-- Reference rendering of the batches the loop actually processes: the
per-batch `(success_count, failed_count)` pairs of the longest prefix of
the batch stream along which the stop flag was never observed set. -/
def processedPrefix (field_mappings : List (String × String))
    (transformation_rules : List (String × TransformationRule))
    (ts : String) (config_id : Int) (index_name : String)
    (stopAt : Nat → Bool) (resps : Nat → BulkResponse) :
    Nat → List (List Row) → List (Nat × Nat)
  | _, [] => []
  | i, batch :: rest =>
    if stopAt i then []
    else
      (bulk_index_documents
        (transform_batch field_mappings transformation_rules batch ts
          config_id index_name).1 index_name (resps i)).1 ::
      processedPrefix field_mappings transformation_rules ts config_id
        index_name stopAt resps (i + 1) rest

/-! ## Dead-letter store (`DeadLetterQueue`) -/

/-- One durable dead-letter entry, the dict serialized by
`add_failed_record` (plus the `file_path` key that `get_failed_records`
attaches after loading; it is absent — `none` — in the file itself). -/
structure FailedRecord where
  timestamp : String
  job_id : Option Int
  table_name : String
  record_data : List (String × OValue)
  error_message : String
  retry_count : Nat
  file_path : Option String
  deriving DecidableEq, Repr

/-- The dead-letter directory: the storage path and the files in it, as
`filename ↦ content` (content `none` models a file whose JSON fails to
load, which `get_failed_records` catches, logs and skips). -/
structure DlqStore where
  storage_path : String
  files : List (String × Option FailedRecord)
  deriving DecidableEq, Repr

/-- The f-string `f"{storage_path}/{table_name}_{timestamp}.json"`. -/
def mkDlqFilename (storage_path table_name timestamp : String) : String :=
  storage_path ++ "/" ++ table_name ++ "_" ++ timestamp ++ ".json"

/-- Python `DeadLetterQueue.add_failed_record`, filesystem made explicit:
`now_iso` is `datetime.now().isoformat()` (colons then replaced by dashes),
`writeOk` is the outcome of `open(filename, 'w')` / `json.dump`.  The write
is NOT wrapped in any `try`/`except`, so a failed durable write propagates
to the caller (`Except.error`); a successful write stores the entry dict
(with `retry_count` 0) under the generated filename.  Writing an
already-existing filename truncates and rewrites that file. -/
def add_failed_record (store : DlqStore) (table_name : String)
    (record_data : List (String × OValue)) (error_message : String)
    (job_id : Option Int) (now_iso : String) (writeOk : Bool) :
    Except Unit DlqStore :=
  let timestamp := String.mk (replaceChar ':' '-' now_iso.data)
  let failed_record : FailedRecord :=
    ⟨timestamp, job_id, table_name, record_data, error_message, 0, none⟩
  let filename := mkDlqFilename store.storage_path table_name timestamp
  if writeOk then
    Except.ok { store with files := dictInsert store.files filename (some failed_record) }
  else
    Except.error ()

/-- Matching of a filename against a `glob` pattern of the shape
`prefix*.json` (the only shape the DLQ uses: `{path}/{table}_*.json` when
table-filtered, `{path}/*.json` otherwise): literal prefix, literal suffix,
and no overlap between them (`*` may match the empty string).  Glob
metacharacters inside the table name and `*` not crossing a directory
separator are outside this model; the round-trip theorem below therefore
carries explicit no-separator hypotheses. -/
def globMatch (pre suf : String) (fn : String) : Bool :=
  List.isPrefixOf pre.data fn.data && List.isSuffixOf suf.data fn.data &&
    decide (pre.length + suf.length ≤ fn.length)

/-- Python `DeadLetterQueue.get_failed_records`: glob the store directory
(optionally table-filtered), load each matching file (a file that fails to
load is logged and skipped), and attach `file_path` to each loaded dict. -/
def get_failed_records (store : DlqStore) (table_name : Option String) :
    List FailedRecord :=
  let pre :=
    match table_name with
    | some t => store.storage_path ++ "/" ++ t ++ "_"
    | none => store.storage_path ++ "/"
  store.files.filterMap (fun p =>
    if globMatch pre ".json" p.1 then
      match p.2 with
      | some r => some { r with file_path := some p.1 }
      | none => none
    else none)

/-- Python `DeadLetterQueue.remove_processed_record`: `os.remove(file_path)`
wrapped in a blanket `try`/`except`, so the method never raises; `removeOk`
is the outcome of `os.remove` (false when the file is absent or not
removable, in which case the error is logged and the store is unchanged). -/
def remove_processed_record (store : DlqStore) (file_path : String)
    (removeOk : Bool) : DlqStore :=
  if removeOk then
    { store with files := store.files.filter (fun p => p.1 ≠ file_path) }
  else store

/-- The summary dict returned by `reprocess_failed_records` (`remaining` is
absent — `none` — in the early-exit "no failed records" branch). -/
structure ReprocessSummary where
  message : String
  processed : Nat
  remaining : Option Nat
  deriving DecidableEq, Repr

/-- Python `AdvancedMigrationService.reprocess_failed_records`: read all (or
table-filtered) dead-letter entries; for each, log, remove its file and
count it processed.  The loop body contains NO re-transform or re-index
step (the source comments it as "This would involve re-transforming and
re-indexing" and does nothing); `remove_processed_record` never raises, so
the `except` branch is reachable only through the (impossible for records
returned by `get_failed_records`) missing `file_path` key, modelled here by
the `none` arm.  Consequently every entry read is removed and counted. -/
def reprocess_failed_records (store : DlqStore) (table_name : Option String)
    (removeOk : String → Bool) : ReprocessSummary × DlqStore :=
  let failed_records := get_failed_records store table_name
  if failed_records.isEmpty then
    (⟨"No failed records found", 0, none⟩, store)
  else
    let r := failed_records.foldl
      (fun (acc : Nat × DlqStore) fr =>
        match fr.file_path with
        | some fp => (acc.1 + 1, remove_processed_record acc.2 fp (removeOk fp))
        | none => (acc.1, acc.2))
      (0, store)
    (⟨"Reprocessed " ++ toString r.1 ++ " out of " ++
        toString failed_records.length ++ " failed records",
      r.1, some (failed_records.length - r.1)⟩, r.2)

/-! ## Validator (`MigrationValidator._validate_record_counts`) -/

/-- The sub-report of `_validate_record_counts`: its score, its status
string, and (absent in the `ERROR` case) the
`(oracle_count, elasticsearch_count, difference, match_percentage)`
detail fields. -/
structure CountValidation where
  score : ℚ
  status : String
  details : Option (Nat × Nat × Int × ℚ)
  deriving DecidableEq, Repr

/-- Python `MigrationValidator._validate_record_counts`, with the two external
counts passed in (`Except.error` = the Oracle query or the Elasticsearch
count call raised).  Python's float division is modelled with exact
rationals.  `max = 0` (both counts zero) raises `ZeroDivisionError`, which
the blanket `except` turns into the score-0 `ERROR` report, like any
infrastructure error. -/
def validate_record_counts (counts : Except Unit (Nat × Nat)) :
    CountValidation :=
  match counts with
  | Except.error _ => ⟨0, "ERROR", none⟩
  | Except.ok (oracle_count, es_count) =>
    if max oracle_count es_count = 0 then ⟨0, "ERROR", none⟩
    else
      let match_percentage : ℚ :=
        ((min oracle_count es_count : Nat) : ℚ) /
          ((max oracle_count es_count : Nat) : ℚ) * 100
      ⟨match_percentage, if match_percentage > 95 then "PASS" else "FAIL",
        some (oracle_count, es_count, (oracle_count : Int) - (es_count : Int),
          match_percentage)⟩

/-! ## Association-list lemmas -/

theorem dictLookup_append {α : Type} (d e : List (String × α)) (k : String) :
    dictLookup (d ++ e) k =
      match dictLookup d k with
      | some v => some v
      | none => dictLookup e k := by
  induction d with
  | nil => simp [dictLookup]
  | cons p d ih =>
    by_cases h : p.1 = k <;> simp [dictLookup, h, ih]

theorem dictLookup_eq_none {α : Type} {d : List (String × α)} {k : String}
    (h : ∀ p ∈ d, p.1 ≠ k) : dictLookup d k = none := by
  induction d with
  | nil => rfl
  | cons p d ih =>
    simp only [dictLookup]
    rw [if_neg (h p (List.mem_cons_self p d))]
    exact ih (fun q hq => h q (List.mem_cons_of_mem _ hq))

theorem dictLookup_map_replace_ne {α : Type} (d : List (String × α))
    (k k' : String) (v : α) (h : k' ≠ k) :
    dictLookup (d.map (fun p => if p.1 = k then (k, v) else p)) k' =
      dictLookup d k' := by
  have hkk' : ¬ k = k' := fun e => h e.symm
  induction d with
  | nil => rfl
  | cons p d ih =>
    by_cases hp : p.1 = k
    · simp only [List.map_cons, if_pos hp, dictLookup, ih]
      rw [if_neg hkk', if_neg (show ¬ p.1 = k' by rw [hp]; exact hkk')]
    · simp only [List.map_cons, if_neg hp, dictLookup, ih]

theorem dictLookup_map_replace_self {α : Type} (d : List (String × α))
    (k : String) (v : α) (h : ∃ p ∈ d, p.1 = k) :
    dictLookup (d.map (fun p => if p.1 = k then (k, v) else p)) k = some v := by
  induction d with
  | nil => simp at h
  | cons p d ih =>
    by_cases hp : p.1 = k
    · simp [dictLookup, hp]
    · have h' : ∃ q ∈ d, q.1 = k := by
        rcases h with ⟨q, hq, hqk⟩
        rcases List.mem_cons.mp hq with rfl | hq'
        · exact absurd hqk hp
        · exact ⟨q, hq', hqk⟩
      simp [dictLookup, hp, ih h']

theorem dictLookup_dictInsert {α : Type} (d : List (String × α))
    (k k' : String) (v : α) :
    dictLookup (dictInsert d k v) k' =
      if k' = k then some v else dictLookup d k' := by
  unfold dictInsert
  split
  · next hany =>
    have hex : ∃ p ∈ d, p.1 = k := by
      rcases List.any_eq_true.mp hany with ⟨p, hp, hpk⟩
      exact ⟨p, hp, of_decide_eq_true hpk⟩
    by_cases hk : k' = k
    · subst hk; simp [dictLookup_map_replace_self d k' v hex]
    · simp [dictLookup_map_replace_ne d k k' v hk, hk]
  · next hany =>
    have hnone : dictLookup d k = none := by
      apply dictLookup_eq_none
      intro p hp hpk
      exact hany (List.any_eq_true.mpr ⟨p, hp, decide_eq_true hpk⟩)
    rw [dictLookup_append]
    by_cases hk : k' = k
    · subst hk; simp [hnone, dictLookup]
    · have hkk : ¬ k = k' := fun e => hk e.symm
      cases hd : dictLookup d k' <;> simp [hd, dictLookup, hk, hkk]

theorem mem_dictInsert_self {α : Type} (d : List (String × α)) (k : String)
    (v : α) : (k, v) ∈ dictInsert d k v := by
  unfold dictInsert
  split
  · next hany =>
    rcases List.any_eq_true.mp hany with ⟨p, hp, hpk⟩
    exact List.mem_map.mpr ⟨p, hp, by simp [of_decide_eq_true hpk]⟩
  · exact List.mem_append_right _ (List.mem_singleton.mpr rfl)

theorem mem_dictInsert {α : Type} {d : List (String × α)} {k : String}
    {v : α} {p : String × α} (h : p ∈ dictInsert d k v) :
    p = (k, v) ∨ p ∈ d := by
  unfold dictInsert at h
  split at h
  · rcases List.mem_map.mp h with ⟨q, hq, hqe⟩
    by_cases hqk : q.1 = k
    · left; rw [← hqe]; simp [hqk]
    · right; rw [← hqe]; simpa [hqk] using hq
  · rcases List.mem_append.mp h with h' | h'
    · exact Or.inr h'
    · exact Or.inl (List.mem_singleton.mp h')

theorem dictKeys_map_replace {α : Type} (d : List (String × α)) (k : String)
    (v : α) :
    dictKeys (d.map (fun p => if p.1 = k then (k, v) else p)) = dictKeys d := by
  unfold dictKeys
  rw [List.map_map]
  apply List.map_congr_left
  intro p _
  by_cases hp : p.1 = k <;> simp [hp]

theorem mem_dictKeys_dictInsert {α : Type} {d : List (String × α)}
    {k k' : String} {v : α} :
    k' ∈ dictKeys (dictInsert d k v) ↔ k' = k ∨ k' ∈ dictKeys d := by
  unfold dictInsert
  split
  · next hany =>
    rw [dictKeys_map_replace]
    constructor
    · exact Or.inr
    · rintro (rfl | h)
      · rcases List.any_eq_true.mp hany with ⟨p, hp, hpk⟩
        have : p.1 = k' := of_decide_eq_true hpk
        exact this ▸ List.mem_map.mpr ⟨p, hp, rfl⟩
      · exact h
  · unfold dictKeys
    rw [List.map_append]
    simp [or_comm]

theorem nodup_dictKeys_dictInsert {α : Type} {d : List (String × α)}
    (k : String) (v : α) (h : (dictKeys d).Nodup) :
    (dictKeys (dictInsert d k v)).Nodup := by
  unfold dictInsert
  split
  · next => rwa [dictKeys_map_replace]
  · next hany =>
    have hk : k ∉ dictKeys d := by
      intro hmem
      rcases List.mem_map.mp hmem with ⟨p, hp, hpk⟩
      exact hany (List.any_eq_true.mpr ⟨p, hp, decide_eq_true hpk⟩)
    unfold dictKeys
    rw [List.map_append]
    refine List.Nodup.append h (List.nodup_singleton k) ?_
    intro a ha hb
    have hak : a = k := by simpa using hb
    exact hk (hak ▸ ha)

/-! ## Fold lemmas for schema generation -/

theorem foldl_step_nodup {α : Type}
    {step : List (String × EsProperty) → α → List (String × EsProperty)}
    (hstep : ∀ acc x, step acc x = acc ∨
      ∃ k v, step acc x = dictInsert acc k v) :
    ∀ (l : List α) (acc : List (String × EsProperty)),
      (dictKeys acc).Nodup → (dictKeys (l.foldl step acc)).Nodup := by
  intro l
  induction l with
  | nil => intro acc h; exact h
  | cons x rest ih =>
    intro acc h
    apply ih
    rcases hstep acc x with he | ⟨k, v, he⟩
    · rwa [he]
    · rw [he]; exact nodup_dictKeys_dictInsert k v h

theorem foldl_step_mem_mono {α : Type}
    {step : List (String × EsProperty) → α → List (String × EsProperty)}
    (hstep : ∀ acc x, step acc x = acc ∨
      ∃ k v, step acc x = dictInsert acc k v) :
    ∀ (l : List α) (acc : List (String × EsProperty)) (k' : String),
      k' ∈ dictKeys acc → k' ∈ dictKeys (l.foldl step acc) := by
  intro l
  induction l with
  | nil => intro acc k' h; exact h
  | cons x rest ih =>
    intro acc k' h
    apply ih
    rcases hstep acc x with he | ⟨k, v, he⟩
    · rwa [he]
    · rw [he]; exact mem_dictKeys_dictInsert.mpr (Or.inr h)

theorem foldl_step_mem {α : Type}
    {step : List (String × EsProperty) → α → List (String × EsProperty)}
    (hstep : ∀ acc x, step acc x = acc ∨
      ∃ k v, step acc x = dictInsert acc k v)
    {x : α} {k : String}
    (hx : ∀ acc, k ∈ dictKeys (step acc x)) :
    ∀ (l : List α) (acc : List (String × EsProperty)),
      x ∈ l → k ∈ dictKeys (l.foldl step acc) := by
  intro l
  induction l with
  | nil => intro acc h; simp at h
  | cons y rest ih =>
    intro acc h
    rcases List.mem_cons.mp h with rfl | h'
    · exact foldl_step_mem_mono hstep rest (step acc x) k (hx acc)
    · exact ih (step acc y) h'

/-! ## Transformer lemmas -/

theorem convert_data_type_ne_null {value v : OValue}
    (h : convert_data_type value = Except.ok (some v)) : v ≠ OValue.null := by
  cases value <;> simp [convert_data_type] at h <;> try (subst h; simp)
  · next content =>
    cases content <;> simp [convert_data_type] at h
    subst h; simp
  · next s =>
    cases s <;> simp [convert_data_type] at h
    subst h; simp

theorem transformFields_lookup_none
    (transformation_rules : List (String × TransformationRule)) (record : Row)
    (of ef : String)
    (hnull : dictLookup record of = some OValue.null)
    (hrule : ∀ r, dictLookup transformation_rules ef = some r →
      apply_transformation OValue.null r = OValue.null) :
    ∀ (fm : List (String × String)) (doc : EsDoc),
      (∀ p ∈ fm, p.2 = ef → p.1 = of) →
      dictLookup doc ef = none →
      ∀ doc', transformFields transformation_rules record fm doc = Except.ok doc' →
        dictLookup doc' ef = none := by
  intro fm
  induction fm with
  | nil =>
    intro doc _ hdoc doc' h'
    simp only [transformFields] at h'
    cases h'
    exact hdoc
  | cons pair rest ih =>
    intro doc hfm hdoc doc' h'
    obtain ⟨f, e⟩ := pair
    have hrest : ∀ p ∈ rest, p.2 = ef → p.1 = of :=
      fun p hp => hfm p (List.mem_cons_of_mem _ hp)
    simp only [transformFields] at h'
    split at h'
    · exact ih doc hrest hdoc doc' h'
    · rename_i value hlf
      split at h'
      · exact Except.noConfusion h'
      · exact ih doc hrest hdoc doc' h'
      · rename_i v hcv
        by_cases he : e = ef
        · exfalso
          subst he
          have hf : f = of := hfm (f, e) (List.mem_cons_self _ _) rfl
          subst hf
          rw [hnull] at hlf
          cases hlf
          have hval : (match dictLookup transformation_rules e with
              | some rule => apply_transformation OValue.null rule
              | none => OValue.null) = OValue.null := by
            cases hr : dictLookup transformation_rules e with
            | none => rfl
            | some rule => exact hrule rule hr
          rw [hval] at hcv
          simp [convert_data_type] at hcv
        · refine ih (dictInsert doc e v) hrest ?_ doc' h'
          rw [dictLookup_dictInsert, if_neg (fun h => he h.symm)]
          exact hdoc

theorem transformFields_no_null
    (transformation_rules : List (String × TransformationRule)) (record : Row) :
    ∀ (fm : List (String × String)) (doc : EsDoc),
      (∀ p ∈ doc, p.2 ≠ OValue.null) →
      ∀ doc', transformFields transformation_rules record fm doc = Except.ok doc' →
        ∀ p ∈ doc', p.2 ≠ OValue.null := by
  intro fm
  induction fm with
  | nil =>
    intro doc hdoc doc' h'
    simp only [transformFields] at h'
    cases h'
    exact hdoc
  | cons pair rest ih =>
    intro doc hdoc doc' h'
    obtain ⟨f, e⟩ := pair
    simp only [transformFields] at h'
    split at h'
    · exact ih doc hdoc doc' h'
    · rename_i value hlf
      split at h'
      · exact Except.noConfusion h'
      · exact ih doc hdoc doc' h'
      · rename_i v hcv
        refine ih (dictInsert doc e v) ?_ doc' h'
        intro p hp
        rcases mem_dictInsert hp with rfl | hp'
        · exact convert_data_type_ne_null hcv
        · exact hdoc p hp'

theorem transform_batch_foldl_length
    (field_mappings : List (String × String))
    (transformation_rules : List (String × TransformationRule))
    (ts : String) (config_id : Int) (index_name : String) :
    ∀ (batch_data : List Row) (acc : List EsDoc × List DlqEntry),
      (batch_data.foldl
        (fun acc record =>
          match transformRecord field_mappings transformation_rules record ts config_id with
          | Except.ok doc => (acc.1 ++ [doc], acc.2)
          | Except.error _ =>
            (acc.1, acc.2 ++ [⟨index_name, record, "Transformation error", some config_id⟩]))
        acc).1.length +
      (batch_data.foldl
        (fun acc record =>
          match transformRecord field_mappings transformation_rules record ts config_id with
          | Except.ok doc => (acc.1 ++ [doc], acc.2)
          | Except.error _ =>
            (acc.1, acc.2 ++ [⟨index_name, record, "Transformation error", some config_id⟩]))
        acc).2.length =
      acc.1.length + acc.2.length + batch_data.length := by
  intro batch_data
  induction batch_data with
  | nil => intro acc; simp
  | cons record rest ih =>
    intro acc
    simp only [List.foldl_cons]
    cases transformRecord field_mappings transformation_rules record ts config_id with
    | ok doc => rw [ih]; simp; omega
    | error e => rw [ih]; simp; omega

theorem transform_batch_length
    (field_mappings : List (String × String))
    (transformation_rules : List (String × TransformationRule))
    (batch_data : List Row) (ts : String) (config_id : Int)
    (index_name : String) :
    (transform_batch field_mappings transformation_rules batch_data ts
        config_id index_name).1.length +
      (transform_batch field_mappings transformation_rules batch_data ts
        config_id index_name).2.length = batch_data.length := by
  unfold transform_batch
  rw [transform_batch_foldl_length]
  simp

/-! ## Engine lemmas -/

theorem runBatches_started
    (field_mappings : List (String × String))
    (transformation_rules : List (String × TransformationRule))
    (ts : String) (config_id : Int) (index_name : String)
    (stopAt : Nat → Bool) (resps : Nat → BulkResponse) :
    ∀ (batches : List (List Row)) (i : Nat) (acc : BatchAcc),
      (runBatches field_mappings transformation_rules ts config_id index_name
        stopAt resps i batches acc).started =
      acc.started + (processedPrefix field_mappings transformation_rules ts
        config_id index_name stopAt resps i batches).length := by
  intro batches
  induction batches with
  | nil => intro i acc; simp [runBatches, processedPrefix]
  | cons batch rest ih =>
    intro i acc
    simp only [runBatches, processedPrefix]
    by_cases h : stopAt i
    · simp [h]
    · simp only [h, Bool.false_eq_true, if_false, ih]
      simp
      omega

theorem runBatches_processed
    (field_mappings : List (String × String))
    (transformation_rules : List (String × TransformationRule))
    (ts : String) (config_id : Int) (index_name : String)
    (stopAt : Nat → Bool) (resps : Nat → BulkResponse) :
    ∀ (batches : List (List Row)) (i : Nat) (acc : BatchAcc),
      (runBatches field_mappings transformation_rules ts config_id index_name
        stopAt resps i batches acc).processed =
      acc.processed + ((processedPrefix field_mappings transformation_rules ts
        config_id index_name stopAt resps i batches).map Prod.fst).sum := by
  intro batches
  induction batches with
  | nil => intro i acc; simp [runBatches, processedPrefix]
  | cons batch rest ih =>
    intro i acc
    simp only [runBatches, processedPrefix]
    by_cases h : stopAt i
    · simp [h]
    · simp only [h, Bool.false_eq_true, if_false, ih]
      simp
      omega

theorem processedPrefix_length_le
    (field_mappings : List (String × String))
    (transformation_rules : List (String × TransformationRule))
    (ts : String) (config_id : Int) (index_name : String)
    (stopAt : Nat → Bool) (resps : Nat → BulkResponse)
    {M : Nat} (hM : stopAt M = true) :
    ∀ (batches : List (List Row)) (i : Nat), i ≤ M →
      (processedPrefix field_mappings transformation_rules ts config_id
        index_name stopAt resps i batches).length + i ≤ M := by
  intro batches
  induction batches with
  | nil => intro i hi; simpa [processedPrefix] using hi
  | cons batch rest ih =>
    intro i hi
    simp only [processedPrefix]
    by_cases h : stopAt i
    · simpa [h] using hi
    · have hne : i ≠ M := fun e => h (e ▸ hM)
      have hi' : i + 1 ≤ M := by omega
      have := ih (i + 1) hi'
      simp only [h, Bool.false_eq_true, if_false, List.length_cons]
      omega

theorem step1_spec (acc : List (String × EsProperty)) (x : FieldMapping) :
    (if x.mapping_type = MappingType.direct then
        dictInsert acc x.es_field (EsProperty.leaf x.es_type (x.es_type = "text"))
      else acc) = acc ∨
    ∃ k v, (if x.mapping_type = MappingType.direct then
        dictInsert acc x.es_field (EsProperty.leaf x.es_type (x.es_type = "text"))
      else acc) = dictInsert acc k v := by
  by_cases h : x.mapping_type = MappingType.direct
  · exact Or.inr ⟨_, _, by rw [if_pos h]⟩
  · exact Or.inl (if_neg h)

theorem dictLookup_getD_mem {α : Type} (l : List (String × α)) (k : String)
    (d : α) (S : List α) (hd : d ∈ S) (hl : ∀ p ∈ l, p.2 ∈ S) :
    (dictLookup l k).getD d ∈ S := by
  induction l with
  | nil => simpa [dictLookup]
  | cons p rest ih =>
    simp only [dictLookup]
    split
    · simpa using hl p (by simp)
    · exact ih (fun q hq => hl q (by simp [hq]))

/-! ## The claims -/

/-- C3 (counterexample): a direct field mapping and a nested mapping that
share the target path `"dup"` do NOT make `generate_elasticsearch_mapping`
fail: the call returns a schema in which the nested declaration has
silently overwritten the direct field — there is no `SchemaConflict`
error anywhere in the code. -/
theorem duplicate_target_paths_silently_overwrite :
    generate_elasticsearch_mapping
        [⟨"A", "dup", "VARCHAR2(10)", "text", MappingType.direct, none, none,
          none, false⟩]
        [⟨"n", "dup", [], false, true⟩] [] =
      [("dup", EsProperty.nestedObj true false [])] := by decide

/-- C3 (amended): `generate_elasticsearch_mapping` never fails, on
duplicate-free and duplicated inputs alike: for every combination of field,
nested and parent-child mappings it returns a schema whose key set has no
duplicates (colliding target paths are silently collapsed, later fold
phases overwriting earlier ones) and which contains an entry for every
direct field target, every nested path, and every join field of the
input. -/
theorem generate_elasticsearch_mapping_total
    (fms : List FieldMapping) (nms : List NestedMapping)
    (pcs : List ParentChildMapping) :
    (dictKeys (generate_elasticsearch_mapping fms nms pcs)).Nodup ∧
    (∀ fm ∈ fms, fm.mapping_type = MappingType.direct →
      fm.es_field ∈ dictKeys (generate_elasticsearch_mapping fms nms pcs)) ∧
    (∀ nm ∈ nms, nm.path ∈ dictKeys (generate_elasticsearch_mapping fms nms pcs)) ∧
    (∀ pc ∈ pcs, pc.join_field ∈ dictKeys (generate_elasticsearch_mapping fms nms pcs)) := by
  unfold generate_elasticsearch_mapping
  refine ⟨?_, ?_, ?_, ?_⟩
  · apply foldl_step_nodup (fun acc x => Or.inr ⟨_, _, rfl⟩)
    apply foldl_step_nodup (fun acc x => Or.inr ⟨_, _, rfl⟩)
    apply foldl_step_nodup (fun acc x => step1_spec acc x)
    simp [dictKeys]
  · intro fm hfm hdir
    apply foldl_step_mem_mono (fun acc x => Or.inr ⟨_, _, rfl⟩)
    apply foldl_step_mem_mono (fun acc x => Or.inr ⟨_, _, rfl⟩)
    refine foldl_step_mem (fun acc x => step1_spec acc x) ?_ fms _ hfm
    intro acc
    rw [if_pos hdir]
    exact mem_dictKeys_dictInsert.mpr (Or.inl rfl)
  · intro nm hnm
    apply foldl_step_mem_mono (fun acc x => Or.inr ⟨_, _, rfl⟩)
    refine foldl_step_mem (fun acc x => Or.inr ⟨_, _, rfl⟩) ?_ nms _ hnm
    intro acc
    exact mem_dictKeys_dictInsert.mpr (Or.inl rfl)
  · intro pc hpc
    refine foldl_step_mem (fun acc x => Or.inr ⟨_, _, rfl⟩) ?_ pcs _ hpc
    intro acc
    exact mem_dictKeys_dictInsert.mpr (Or.inl rfl)

/-- C3 (witness): the amended theorem applied to a concrete conflicting
configuration — the duplicated path appears (once) in the schema keys. -/
theorem generate_elasticsearch_mapping_total_witness :
    ("dup" : String) ∈ dictKeys (generate_elasticsearch_mapping
      [⟨"A", "dup", "VARCHAR2(10)", "text", MappingType.direct, none, none,
        none, false⟩]
      [⟨"n", "dup", [], false, true⟩] []) :=
  (generate_elasticsearch_mapping_total
      [⟨"A", "dup", "VARCHAR2(10)", "text", MappingType.direct, none, none,
        none, false⟩]
      [⟨"n", "dup", [], false, true⟩] []).2.2.1
    ⟨"n", "dup", [], false, true⟩ (by simp)

/-- C4 (counterexample): `_suggest_es_type` maps `VARCHAR2(100)` to the
exact-match type `keyword` (100 ≤ the 256 threshold), not to the full-text
type the claim states. -/
theorem varchar2_100_maps_to_keyword :
    suggest_es_type "VARCHAR2(100)" = "keyword" ∧ ("keyword" : String) ≠ "text" := by
  decide

/-- C4 (amended): `_suggest_es_type` maps `NUMBER(10,2)` to `scaled_float`,
`NUMBER(10)` to `long`, and both `VARCHAR2(100)` and `VARCHAR2(50)` to the
exact-match type `keyword`, since both lengths are at most the 256
threshold. -/
theorem suggest_es_type_instances :
    suggest_es_type "NUMBER(10,2)" = "scaled_float" ∧
    suggest_es_type "NUMBER(10)" = "long" ∧
    suggest_es_type "VARCHAR2(100)" = "keyword" ∧
    suggest_es_type "VARCHAR2(50)" = "keyword" := by decide

/-- C10: `_suggest_es_type` is total: every input string yields one of the
eight type names of its fixed tables and branch literals, and a malformed
length specification such as `VARCHAR2(abc)` (where `int(...)` raises and the
bare `except` passes) falls back to the full-text type `text`. -/
theorem suggest_es_type_total_range :
    (∀ s : String, suggest_es_type s ∈
      ["text", "keyword", "long", "integer", "float", "date", "binary",
        "scaled_float"]) ∧
    suggest_es_type "VARCHAR2(abc)" = "text" := by
  constructor
  · intro s
    unfold suggest_es_type
    dsimp only
    split
    · split <;> simp
    · split
      · split
        · split
          · split <;> simp
          · simp
        · simp
      · exact dictLookup_getD_mem type_mappings _ "text" _ (by simp) (by decide)
  · decide

/-- C5 (counterexample): a failed durable write propagates out of
`add_failed_record` — the `open`/`json.dump` block is not wrapped in any
`try`/`except`, so the caller sees the exception. -/
theorem add_failed_record_propagates_write_failure :
    add_failed_record ⟨"failed_records", []⟩ "ORDERS" [] "boom" (some 1)
      "2024-01-01T00:00:00" false = Except.error () := rfl

/-- C5 (amended): `add_failed_record` raises exactly when the durable write
fails: with a successful write it returns normally (with the entry stored
under the generated filename), and with a failed write the exception
propagates to the caller instead of being absorbed. -/
theorem add_failed_record_raises_iff_write_fails
    (store : DlqStore) (table_name : String)
    (record_data : List (String × OValue)) (error_message : String)
    (job_id : Option Int) (now_iso : String) :
    (∃ s', add_failed_record store table_name record_data error_message
        job_id now_iso true = Except.ok s' ∧
      s'.files = dictInsert store.files
        (mkDlqFilename store.storage_path table_name
          (String.mk (replaceChar ':' '-' now_iso.data)))
        (some ⟨String.mk (replaceChar ':' '-' now_iso.data), job_id,
          table_name, record_data, error_message, 0, none⟩)) ∧
    add_failed_record store table_name record_data error_message job_id
      now_iso false = Except.error () := by
  exact ⟨⟨_, rfl, rfl⟩, rfl⟩

/-- C6 (code divergence witness): evaluating `reprocess_failed_records` on a
store holding one dead-letter entry: the entry is removed and counted as
processed (`processed = 1`, `remaining = 0`, store left empty) even though
the loop contains no re-transform or re-index step at all — removal is
unconditional, not contingent on a successful reload. -/
theorem reprocess_failed_records_removes_without_reload :
    (reprocess_failed_records
        ⟨"failed_records",
          [("failed_records/ORDERS_t1.json",
            some ⟨"t1", some 1, "ORDERS", [], "Indexing error: boom", 0, none⟩)]⟩
        none (fun _ => true)).1.processed = 1 ∧
    (reprocess_failed_records
        ⟨"failed_records",
          [("failed_records/ORDERS_t1.json",
            some ⟨"t1", some 1, "ORDERS", [], "Indexing error: boom", 0, none⟩)]⟩
        none (fun _ => true)).1.remaining = some 0 ∧
    (reprocess_failed_records
        ⟨"failed_records",
          [("failed_records/ORDERS_t1.json",
            some ⟨"t1", some 1, "ORDERS", [], "Indexing error: boom", 0, none⟩)]⟩
        none (fun _ => true)).2 = ⟨"failed_records", []⟩ := by decide

/-- C8: count-parity scoring of `_validate_record_counts`: for all count
pairs that are not both zero the score is `min/max * 100` (exact rational
arithmetic) and the status is `PASS` exactly when the score exceeds 95;
in particular (100, 100) scores 100 with `PASS` and (100, 50) scores 50
with `FAIL`. -/
theorem validate_record_counts_score_and_status (a b : Nat)
    (h : ¬(a = 0 ∧ b = 0)) :
    ((validate_record_counts (Except.ok (a, b))).score =
        ((min a b : Nat) : ℚ) / ((max a b : Nat) : ℚ) * 100 ∧
      ((validate_record_counts (Except.ok (a, b))).status = "PASS" ↔
        (validate_record_counts (Except.ok (a, b))).score > 95)) ∧
    (validate_record_counts (Except.ok (100, 100))).score = 100 ∧
    (validate_record_counts (Except.ok (100, 100))).status = "PASS" ∧
    (validate_record_counts (Except.ok (100, 50))).score = 50 ∧
    (validate_record_counts (Except.ok (100, 50))).status = "FAIL" := by
  have hmax : ¬ max a b = 0 := by
    simp only [Nat.max_eq_zero_iff]
    exact h
  refine ⟨⟨?_, ?_⟩, ?_, ?_, ?_, ?_⟩
  · simp [validate_record_counts, hmax]
  · simp only [validate_record_counts, hmax, if_false]
    by_cases hgt : ((min a b : Nat) : ℚ) / ((max a b : Nat) : ℚ) * 100 > 95 <;>
      simp [hgt]
  · norm_num [validate_record_counts]
  · norm_num [validate_record_counts]
  · norm_num [validate_record_counts]
  · norm_num [validate_record_counts]

/-- C8 (witness): the scoring theorem applied at the concrete pair
(100, 50). -/
theorem validate_record_counts_score_and_status_witness :
    ((validate_record_counts (Except.ok (100, 50))).score =
        ((min 100 50 : Nat) : ℚ) / ((max 100 50 : Nat) : ℚ) * 100 ∧
      ((validate_record_counts (Except.ok (100, 50))).status = "PASS" ↔
        (validate_record_counts (Except.ok (100, 50))).score > 95)) ∧
    (validate_record_counts (Except.ok (100, 100))).score = 100 ∧
    (validate_record_counts (Except.ok (100, 100))).status = "PASS" ∧
    (validate_record_counts (Except.ok (100, 50))).score = 50 ∧
    (validate_record_counts (Except.ok (100, 50))).status = "FAIL" :=
  validate_record_counts_score_and_status 100 50 (by decide)

/-- C1 (counterexample): a one-row batch whose single value is a
non-primitive object with a raising `__str__`: the row's transformation
raises, the row is dead-lettered and excluded from the document list, the
bulk step over the empty list returns `(0, 0)` — so success + failed = 0,
not 1 = the number of rows: the failed row is missing from both counts. -/
theorem transform_then_bulk_counts_miss_failed_row :
    (bulk_index_documents
        (transform_batch [("f", "x")] [] [[("f", OValue.obj none)]] "T" 1 "idx").1
        "idx" (BulkResponse.result 0 [])).1.1 +
      (bulk_index_documents
        (transform_batch [("f", "x")] [] [[("f", OValue.obj none)]] "T" 1 "idx").1
        "idx" (BulkResponse.result 0 [])).1.2 = 0 ∧
    ([[("f", OValue.obj none)]] : List Row).length = 1 ∧
    (transform_batch [("f", "x")] [] [[("f", OValue.obj none)]] "T" 1 "idx").2.length
      = 1 := by decide

/-- C1 (amended): for every batch (empty ones included) and every bulk
outcome satisfying the bulk helper's contract, success count + failed count
+ the number of rows dead-lettered during transformation equals the number
of rows in the batch: the bulk counters alone cover only the rows that
survived transformation; a transform-failed row appears in the dead-letter
store, not in either counter. -/
theorem transform_then_bulk_counts_with_dlq
    (field_mappings : List (String × String))
    (transformation_rules : List (String × TransformationRule))
    (batch_data : List Row) (ts : String) (config_id : Int)
    (index_name : String) (resp : BulkResponse)
    (h : bulkRespConsistent
      (transform_batch field_mappings transformation_rules batch_data ts
        config_id index_name).1.length resp) :
    (bulk_index_documents
        (transform_batch field_mappings transformation_rules batch_data ts
          config_id index_name).1 index_name resp).1.1 +
      (bulk_index_documents
        (transform_batch field_mappings transformation_rules batch_data ts
          config_id index_name).1 index_name resp).1.2 +
      (transform_batch field_mappings transformation_rules batch_data ts
        config_id index_name).2.length = batch_data.length := by
  have hlen := transform_batch_length field_mappings transformation_rules
    batch_data ts config_id index_name
  unfold bulk_index_documents
  split
  · next hemp =>
    have h0 : (transform_batch field_mappings transformation_rules batch_data
        ts config_id index_name).1.length = 0 := by
      rw [List.isEmpty_iff] at hemp
      simp [hemp]
    simp only []
    omega
  · next hemp =>
    cases resp with
    | result sc f =>
      unfold bulkRespConsistent at h
      simp only []
      omega
    | exc =>
      simp only []
      omega

/-- C1 (witness): the amended accounting applied to a concrete one-row
batch that transforms cleanly and bulk-loads successfully. -/
theorem transform_then_bulk_counts_with_dlq_witness :
    bulkRespConsistent
      (transform_batch [("a", "x")] [] [[("a", OValue.num 1)]] "T" 1 "idx").1.length
      (BulkResponse.result 1 []) ∧
    (bulk_index_documents
        (transform_batch [("a", "x")] [] [[("a", OValue.num 1)]] "T" 1 "idx").1
        "idx" (BulkResponse.result 1 [])).1.1 +
      (bulk_index_documents
        (transform_batch [("a", "x")] [] [[("a", OValue.num 1)]] "T" 1 "idx").1
        "idx" (BulkResponse.result 1 [])).1.2 +
      (transform_batch [("a", "x")] [] [[("a", OValue.num 1)]] "T" 1 "idx").2.length
      = ([[("a", OValue.num 1)]] : List Row).length := by
  have hcons : bulkRespConsistent
      (transform_batch [("a", "x")] [] [[("a", OValue.num 1)]] "T" 1 "idx").1.length
      (BulkResponse.result 1 []) := by
    unfold bulkRespConsistent
    decide
  exact ⟨hcons, transform_then_bulk_counts_with_dlq [("a", "x")] []
    [[("a", OValue.num 1)]] "T" 1 "idx" (BulkResponse.result 1 []) hcons⟩

/-- C9 (counterexample): with two field mappings sharing the target field
`x`, a row in which the first mapping's source `a` is present and null (and
no transformation rules are configured) still yields a document in which
`x` is present — written by the second mapping from source `b` — so the
claim's universally quantified "the target field is entirely absent" fails
as stated. -/
theorem null_source_target_still_present :
    (transformRecord [("a", "x"), ("b", "x")] []
        [("a", OValue.null), ("b", OValue.num 1)] "T" 7).map
      (fun doc => dictLookup doc "x") = Except.ok (some (OValue.num 1)) := rfl

/-- C9 (amended): for every row and every field mapping whose source field
is present and null, whose transformation rule (if any) preserves null,
whose target field is written by no other field mapping and is not one of
the two metadata fields, the target field is entirely absent from the
output document; and, unconditionally, no output document ever stores an
explicit null value. -/
theorem nulls_dropped_from_documents
    (field_mappings : List (String × String))
    (transformation_rules : List (String × TransformationRule))
    (record : Row) (ts : String) (config_id : Int) (of ef : String)
    (_hmem : (of, ef) ∈ field_mappings)
    (hnull : dictLookup record of = some OValue.null)
    (hrule : ∀ r, dictLookup transformation_rules ef = some r →
      apply_transformation OValue.null r = OValue.null)
    (huniq : ∀ p ∈ field_mappings, p.2 = ef → p.1 = of)
    (hts : ef ≠ "_migration_timestamp") (hjid : ef ≠ "_migration_job_id") :
    ∀ doc, transformRecord field_mappings transformation_rules record ts
        config_id = Except.ok doc →
      dictLookup doc ef = none ∧ ∀ p ∈ doc, p.2 ≠ OValue.null := by
  intro doc h
  unfold transformRecord at h
  cases hf : transformFields transformation_rules record field_mappings [] with
  | error e =>
    rw [hf] at h
    exact Except.noConfusion h
  | ok doc0 =>
    rw [hf] at h
    cases h
    constructor
    · rw [dictLookup_dictInsert, if_neg hjid, dictLookup_dictInsert, if_neg hts]
      exact transformFields_lookup_none transformation_rules record of ef hnull
        hrule field_mappings [] huniq rfl doc0 hf
    · intro p hp
      rcases mem_dictInsert hp with rfl | hp'
      · simp
      · rcases mem_dictInsert hp' with rfl | hp''
        · simp
        · exact transformFields_no_null transformation_rules record
            field_mappings [] (by simp) doc0 hf p hp''

/-- C9 (witness): the amended theorem at a concrete single-mapping row with
a null source value — the target field is absent and the document stores no
nulls. -/
theorem nulls_dropped_from_documents_witness :
    dictLookup [("_migration_timestamp", OValue.str "T"),
      ("_migration_job_id", OValue.num 7)] "x" = none ∧
    ∀ p ∈ ([("_migration_timestamp", OValue.str "T"),
      ("_migration_job_id", OValue.num 7)] : EsDoc), p.2 ≠ OValue.null :=
  nulls_dropped_from_documents [("a", "x")] [] [("a", OValue.null)] "T" 7 "a" "x"
    (by decide) (by decide) (fun r hr => by cases hr) (by decide)
    (by decide) (by decide)
    [("_migration_timestamp", OValue.str "T"), ("_migration_job_id", OValue.num 7)]
    rfl

/-- C2 (counterexample): a two-batch run in which the stop flag is observed
set at the boundary before batch 1 (0-indexed): the engine breaks out of
the loop, and `start_advanced_migration` then marks the job `completed` —
not `stopped`; no code path in the service ever assigns `stopped`. -/
theorem stop_leaves_job_completed :
    (start_advanced_migration "full" [("a", "x")] [] "T" 1 "idx"
        [[[("a", OValue.num 1)]], [[("a", OValue.num 2)]]]
        (fun i => decide (1 ≤ i)) (fun _ => BulkResponse.result 1 [])).status
      = "completed" ∧ ("completed" : String) ≠ "stopped" := by decide

/-- C2 (amended): if the stop flag is observed set at the batch boundary
before batch `M`, the engine processes exactly the prefix of batches before
the first set-flag observation — so no later batch (in particular none
beyond `M`) begins — and `processed_records` ends as the sum of the
bulk-load success counts of exactly those batches; but the job's terminal
status is `completed`, not `stopped` (the `stopped` status is only ever
written by the HTTP route, outside the engine, and the engine overwrites
the status when its worker finishes). -/
theorem stop_bounds_batches_and_counters
    (field_mappings : List (String × String))
    (transformation_rules : List (String × TransformationRule))
    (ts : String) (config_id : Int) (index_name : String)
    (batches : List (List Row)) (stopAt : Nat → Bool)
    (resps : Nat → BulkResponse) (M : Nat) (hM : stopAt M = true) :
    (execute_full_migration field_mappings transformation_rules ts config_id
        index_name batches stopAt resps).started =
      (processedPrefix field_mappings transformation_rules ts config_id
        index_name stopAt resps 0 batches).length ∧
    (processedPrefix field_mappings transformation_rules ts config_id
        index_name stopAt resps 0 batches).length ≤ M ∧
    (start_advanced_migration "full" field_mappings transformation_rules ts
        config_id index_name batches stopAt resps).status = "completed" ∧
    (start_advanced_migration "full" field_mappings transformation_rules ts
        config_id index_name batches stopAt resps).processed_records =
      ((processedPrefix field_mappings transformation_rules ts config_id
        index_name stopAt resps 0 batches).map Prod.fst).sum := by
  refine ⟨?_, ?_, ?_, ?_⟩
  · unfold execute_full_migration
    rw [runBatches_started]
    simp
  · have := processedPrefix_length_le field_mappings transformation_rules ts
      config_id index_name stopAt resps hM batches 0 (Nat.zero_le M)
    omega
  · simp [start_advanced_migration]
  · unfold start_advanced_migration
    rw [if_pos (Or.inl rfl)]
    unfold execute_full_migration
    simp only [runBatches_processed]
    simp

/-- C2 (witness): the amended theorem at a concrete two-batch run stopped
before batch 1. -/
theorem stop_bounds_batches_and_counters_witness :
    (execute_full_migration [("a", "x")] [] "T" 1 "idx"
        [[[("a", OValue.num 1)]], [[("a", OValue.num 2)]]]
        (fun i => decide (1 ≤ i)) (fun _ => BulkResponse.result 1 [])).started =
      (processedPrefix [("a", "x")] [] "T" 1 "idx"
        (fun i => decide (1 ≤ i)) (fun _ => BulkResponse.result 1 []) 0
        [[[("a", OValue.num 1)]], [[("a", OValue.num 2)]]]).length ∧
    (processedPrefix [("a", "x")] [] "T" 1 "idx"
        (fun i => decide (1 ≤ i)) (fun _ => BulkResponse.result 1 []) 0
        [[[("a", OValue.num 1)]], [[("a", OValue.num 2)]]]).length ≤ 1 ∧
    (start_advanced_migration "full" [("a", "x")] [] "T" 1 "idx"
        [[[("a", OValue.num 1)]], [[("a", OValue.num 2)]]]
        (fun i => decide (1 ≤ i)) (fun _ => BulkResponse.result 1 [])).status
      = "completed" ∧
    (start_advanced_migration "full" [("a", "x")] [] "T" 1 "idx"
        [[[("a", OValue.num 1)]], [[("a", OValue.num 2)]]]
        (fun i => decide (1 ≤ i)) (fun _ => BulkResponse.result 1 [])).processed_records =
      ((processedPrefix [("a", "x")] [] "T" 1 "idx"
        (fun i => decide (1 ≤ i)) (fun _ => BulkResponse.result 1 []) 0
        [[[("a", OValue.num 1)]], [[("a", OValue.num 2)]]]).map Prod.fst).sum :=
  stop_bounds_batches_and_counters [("a", "x")] [] "T" 1 "idx"
    [[[("a", OValue.num 1)]], [[("a", OValue.num 2)]]]
    (fun i => decide (1 ≤ i)) (fun _ => BulkResponse.result 1 []) 1 (by decide)

theorem globMatch_all (p t ts : String) :
    globMatch (p ++ "/") ".json" (mkDlqFilename p t ts) = true := by
  unfold globMatch
  simp only [Bool.and_eq_true, decide_eq_true_eq]
  refine ⟨⟨?_, ?_⟩, ?_⟩
  · rw [List.isPrefixOf_iff_prefix]
    exact ⟨(t ++ "_" ++ ts ++ ".json").data,
      by simp [mkDlqFilename, String.data_append]⟩
  · rw [List.isSuffixOf_iff_suffix]
    exact ⟨(p ++ "/" ++ t ++ "_" ++ ts).data,
      by simp [mkDlqFilename, String.data_append]⟩
  · simp only [mkDlqFilename, String.length_append]
    omega

theorem globMatch_table (p t ts : String) :
    globMatch (p ++ "/" ++ t ++ "_") ".json" (mkDlqFilename p t ts) = true := by
  unfold globMatch
  simp only [Bool.and_eq_true, decide_eq_true_eq]
  refine ⟨⟨?_, ?_⟩, ?_⟩
  · rw [List.isPrefixOf_iff_prefix]
    exact ⟨(ts ++ ".json").data, by simp [mkDlqFilename, String.data_append]⟩
  · rw [List.isSuffixOf_iff_suffix]
    exact ⟨(p ++ "/" ++ t ++ "_" ++ ts).data,
      by simp [mkDlqFilename, String.data_append]⟩
  · simp only [mkDlqFilename, String.length_append]
    omega

theorem removed_entry_not_listed (s : DlqStore) (fn : String)
    (filt : Option String) :
    ∀ e ∈ get_failed_records (remove_processed_record s fn true) filt,
      e.file_path ≠ some fn := by
  intro e he
  unfold remove_processed_record at he
  rw [if_pos rfl] at he
  unfold get_failed_records at he
  rcases List.mem_filterMap.mp he with ⟨p, hp, hpe⟩
  obtain ⟨k, c⟩ := p
  have hkey : ¬ k = fn := by
    have h2 := (List.mem_filter.mp hp).2
    simpa using h2
  split at hpe
  · cases c with
    | none => exact Option.noConfusion hpe
    | some r =>
      injection hpe with hpe
      intro heq
      rw [← hpe] at heq
      exact hkey (Option.some.inj heq)
  · exact Option.noConfusion hpe

theorem remove_absent_noop (s : DlqStore) (fn : String) (ok : Bool)
    (h : fn ∉ dictKeys s.files) : remove_processed_record s fn ok = s := by
  unfold remove_processed_record
  cases ok with
  | false => rfl
  | true =>
    rw [if_pos rfl]
    have hfil : s.files.filter (fun p => decide (p.1 ≠ fn)) = s.files := by
      apply List.filter_eq_self.mpr
      intro p hp
      apply decide_eq_true
      intro e
      exact h (e ▸ (List.mem_map.mpr ⟨p, hp, rfl⟩ : p.1 ∈ dictKeys s.files))
    rw [hfil]

/-- C7: dead-letter round-trip.  An entry written by `add_failed_record`
(with the durable write succeeding) appears in `get_failed_records`, both
unfiltered and filtered by its own table name; after
`remove_processed_record` of its file no listed entry carries that file
path any more; and removing an absent file is a no-op that raises no error
(the store is returned unchanged whatever the `os.remove` outcome).  The
two separator hypotheses mark the boundary of the glob model: table names
and timestamps must not contain the directory separator (real timestamps
are dash-normalized ISO strings and never do). -/
theorem dead_letter_round_trip
    (store : DlqStore) (table_name : String)
    (record_data : List (String × OValue)) (error_message : String)
    (job_id : Option Int) (now_iso : String) (s' : DlqStore)
    (hadd : add_failed_record store table_name record_data error_message
      job_id now_iso true = Except.ok s')
    (_hsep1 : '/' ∉ table_name.data)
    (_hsep2 : '/' ∉ replaceChar ':' '-' now_iso.data) :
    FailedRecord.mk (String.mk (replaceChar ':' '-' now_iso.data)) job_id
        table_name record_data error_message 0
        (some (mkDlqFilename store.storage_path table_name
          (String.mk (replaceChar ':' '-' now_iso.data)))) ∈
      get_failed_records s' none ∧
    FailedRecord.mk (String.mk (replaceChar ':' '-' now_iso.data)) job_id
        table_name record_data error_message 0
        (some (mkDlqFilename store.storage_path table_name
          (String.mk (replaceChar ':' '-' now_iso.data)))) ∈
      get_failed_records s' (some table_name) ∧
    (∀ filt e, e ∈ get_failed_records
        (remove_processed_record s'
          (mkDlqFilename store.storage_path table_name
            (String.mk (replaceChar ':' '-' now_iso.data))) true) filt →
      e.file_path ≠ some (mkDlqFilename store.storage_path table_name
        (String.mk (replaceChar ':' '-' now_iso.data)))) ∧
    (∀ fn ok, fn ∉ dictKeys store.files →
      remove_processed_record store fn ok = store) := by
  simp only [add_failed_record, if_true] at hadd
  injection hadd with hs'
  refine ⟨?_, ?_, ?_, ?_⟩
  · rw [← hs']
    refine List.mem_filterMap.mpr
      ⟨(mkDlqFilename store.storage_path table_name
          (String.mk (replaceChar ':' '-' now_iso.data)),
        some ⟨String.mk (replaceChar ':' '-' now_iso.data), job_id, table_name,
          record_data, error_message, 0, none⟩),
        mem_dictInsert_self _ _ _, ?_⟩
    simp [globMatch_all]
  · rw [← hs']
    refine List.mem_filterMap.mpr
      ⟨(mkDlqFilename store.storage_path table_name
          (String.mk (replaceChar ':' '-' now_iso.data)),
        some ⟨String.mk (replaceChar ':' '-' now_iso.data), job_id, table_name,
          record_data, error_message, 0, none⟩),
        mem_dictInsert_self _ _ _, ?_⟩
    simp [globMatch_table]
  · intro filt e
    exact removed_entry_not_listed s' _ filt e
  · intro fn ok hfn
    exact remove_absent_noop store fn ok hfn

/-- C7 (witness): the round-trip theorem at a concrete store, table and
timestamp — the freshly written entry is listed under its own table
filter. -/
theorem dead_letter_round_trip_witness :
    add_failed_record ⟨"failed_records", []⟩ "ORDERS" [] "boom" (some 7)
        "2024-01-01T00:00:00" true = Except.ok ⟨"failed_records",
          [("failed_records/ORDERS_2024-01-01T00-00-00.json",
            some ⟨"2024-01-01T00-00-00", some 7, "ORDERS", [], "boom", 0,
              none⟩)]⟩ ∧
    FailedRecord.mk "2024-01-01T00-00-00" (some 7) "ORDERS" [] "boom" 0
        (some "failed_records/ORDERS_2024-01-01T00-00-00.json") ∈
      get_failed_records ⟨"failed_records",
        [("failed_records/ORDERS_2024-01-01T00-00-00.json",
          some ⟨"2024-01-01T00-00-00", some 7, "ORDERS", [], "boom", 0,
            none⟩)]⟩ (some "ORDERS") :=
  ⟨rfl, (dead_letter_round_trip ⟨"failed_records", []⟩ "ORDERS" [] "boom"
    (some 7) "2024-01-01T00:00:00" _ rfl (by decide) (by decide)).2.1⟩

